import Mathlib

/-!
Verification of the performance-report application (proxy endpoint and
report client) against its natural-language specification.

The development shallowly embeds the JavaScript source:
  - the report client (URL normalization, score/metric formatting,
    opportunity extraction, mock report synthesis, error sanitizing,
    submission lifecycle), and
  - the Netlify proxy function.

Strings are handled through their underlying character lists; JavaScript
numbers appearing in scores are modelled as rationals, integer metric
percentiles as integers.
-/

/-- Whitespace set used by the JavaScript trim / regex whitespace
operations (the common ASCII whitespace characters). -/
def isWsChar (c : Char) : Bool :=
  c = ' ' || c = '\t' || c = '\n' || c = '\r'

/-- Trim of a character list: drop whitespace from both ends, as
JavaScript String.prototype.trim does. -/
def trimL (l : List Char) : List Char :=
  ((l.dropWhile isWsChar).reverse.dropWhile isWsChar).reverse

/-- Does the second list start with the first? Models JavaScript
String.prototype.startsWith. -/
def startsWithL : List Char → List Char → Bool
  | [], _ => true
  | _ :: _, [] => false
  | p :: ps, c :: cs => p = c && startsWithL ps cs

/-- Modelled from the spec: the platform WHATWG URL value produced by
the URL constructor (absent from src/, a browser builtin).  Only the
shapes reachable from normalizeUrl matter: absolute http/https URLs,
kept as a scheme flag, a host and a path. -/
structure UrlRec where
  secure : Bool
  host : List Char
  path : List Char
  deriving Repr, DecidableEq

/-- The characters of "https://" and of "http://". -/
def httpsChars : List Char := ['h', 't', 't', 'p', 's', ':', '/', '/']

/-- The characters of "http://". -/
def httpChars : List Char := ['h', 't', 't', 'p', ':', '/', '/']

/-- Characters the modelled parser accepts in a host: anything that is
not whitespace (rejected by the real parser as forbidden host code
points) and not the path delimiter. -/
def isHostChar (c : Char) : Bool :=
  !isWsChar c && !(c = '/')

/-- Characters the modelled parser accepts in a path: anything but raw
whitespace (which the real parser never leaves in a serialized
URL). -/
def isPathChar (c : Char) : Bool :=
  !isWsChar c

/-- Split the part after the scheme at the first '/': authority on the
left, path (starting with '/', possibly empty) on the right. -/
def splitHost : List Char → List Char × List Char
  | [] => ([], [])
  | c :: cs =>
    if c = '/' then ([], c :: cs)
    else
      let hp := splitHost cs
      (c :: hp.1, hp.2)

/-- Modelled from the spec: parsing after the scheme.  The host must be
nonempty and contain no whitespace; an empty path canonicalizes to
"/". -/
def parseAfterScheme (sec : Bool) (rest : List Char) : Option UrlRec :=
  let hp := splitHost rest
  if hp.1 = [] then none
  else if hp.1.all isHostChar && hp.2.all isPathChar then
    some ⟨sec, hp.1, if hp.2 = [] then ['/'] else hp.2⟩
  else none

/-- Modelled from the spec: "Attempt to parse as an absolute URL; on
parse failure, reject" — the WHATWG URL constructor restricted to the
http/https inputs normalizeUrl can produce.  Whitespace in the host is
a forbidden host code point and fails the parse, an empty host fails
the parse, and an empty path serializes as "/". -/
def urlParseL (l : List Char) : Option UrlRec :=
  match l with
  | 'h' :: 't' :: 't' :: 'p' :: 's' :: ':' :: '/' :: '/' :: rest =>
    parseAfterScheme true rest
  | 'h' :: 't' :: 't' :: 'p' :: ':' :: '/' :: '/' :: rest =>
    parseAfterScheme false rest
  | _ => none

/-- Modelled from the spec: canonical re-serialization of a parsed URL
(URL.prototype.toString). -/
def UrlRec.render (u : UrlRec) : List Char :=
  (if u.secure then httpsChars else httpChars) ++ u.host ++ u.path

/-- The scheme-completion step of normalizeUrl: if the trimmed input
does not already start with http:// or https://, prepend https://. -/
def withSchemeL (trimmed : List Char) : List Char :=
  if startsWithL httpChars trimmed || startsWithL httpsChars trimmed
  then trimmed
  else httpsChars ++ trimmed

/-- normalizeUrl from src/app.js: trim, reject empty, complete the
scheme, parse as an absolute URL, and return the canonical
re-serialization; null (here none) on empty input or parse failure. -/
def normalizeUrl (raw : String) : Option String :=
  let trimmed := trimL raw.data
  if trimmed = [] then none
  else
    match urlParseL (withSchemeL trimmed) with
    | some u => some ⟨u.render⟩
    | none => none

/-- Math.round as JavaScript defines it: round half toward positive
infinity. -/
def jsRound (q : ℚ) : ℤ := ⌊q + 1 / 2⌋

/-- toPercent from src/app.js: a numeric 0-1 score becomes the rounded
integer percentage as a string; any non-number becomes the em-dash
placeholder. -/
def toPercent (score01 : Option ℚ) : String :=
  match score01 with
  | none => "—"
  | some q => toString (jsRound (q * 100))

/-- The unit argument of formatCwvMetric ("ms", "s", or anything else,
which the function treats as raw). -/
inductive CwvUnit where
  | ms
  | s
  | raw
  deriving Repr, DecidableEq

/-- A loadingExperience metric object; percentile is present only when
it is a number (PSI percentiles are integers, modelled as such). -/
structure Metric where
  percentile : Option ℤ
  deriving Repr, DecidableEq

/-- Number.prototype.toFixed(1) applied to p / 1000 for an integer
p: one decimal digit, rounding half away from zero (nonnegative inputs
round half up, as the only case the client reaches). -/
def toFixed1Of1000th (p : ℤ) : String :=
  let n := jsRound ((p : ℚ) / 100)
  toString (n / 10) ++ "." ++ toString (n % 10)

/-- formatCwvMetric from src/app.js: absent object or non-numeric
percentile renders the placeholder; otherwise the percentile renders
with its unit ("ms" suffix, seconds to one decimal, or raw). -/
def formatCwvMetric (metricObj : Option Metric) (unit : CwvUnit) : String :=
  match metricObj with
  | none => "—"
  | some m =>
    match m.percentile with
    | none => "—"
    | some p =>
      match unit with
      | .ms => toString p ++ " ms"
      | .s => toFixed1Of1000th p ++ " s"
      | .raw => toString p

/-- The loadingExperience.metrics object: each field is a metric object
or absent. -/
structure Metrics where
  lcp : Option Metric
  inp : Option Metric
  cls : Option Metric
  fid : Option Metric
  deriving Repr, DecidableEq

/-- Call site for the LCP cell: metrics?.LARGEST_CONTENTFUL_PAINT_MS
flows into formatCwvMetric with unit "s", absent flows into the
placeholder. -/
def lcpCell (metrics : Option Metrics) : String :=
  match metrics.bind Metrics.lcp with
  | some m => formatCwvMetric (some m) .s
  | none => "—"

/-- Call site for the INP cell in the live-only client variant: INP
when present, otherwise the legacy FIRST_INPUT_DELAY_MS metric,
otherwise the placeholder; both render in milliseconds. -/
def inpCell (metrics : Option Metrics) : String :=
  match metrics.bind Metrics.inp with
  | some m => formatCwvMetric (some m) .ms
  | none =>
    match metrics.bind Metrics.fid with
    | some m => formatCwvMetric (some m) .ms
    | none => "—"

/-- Call site for the CLS cell: raw unitless rendering. -/
def clsCell (metrics : Option Metrics) : String :=
  match metrics.bind Metrics.cls with
  | some m => formatCwvMetric (some m) .raw
  | none => "—"

/-- A Lighthouse audit entry: score is a number or null, title a
string (absent modelled as the empty string, both being falsy). -/
structure Audit where
  score : Option ℚ
  title : String
  deriving Repr, DecidableEq

/-- The four category score slots of lighthouseResult.categories; each
holds the score number when present. -/
structure Categories where
  performance : Option ℚ
  accessibility : Option ℚ
  bestPractices : Option ℚ
  seo : Option ℚ
  deriving Repr, DecidableEq

/-- lighthouseResult: category scores plus the audits map, kept as an
association list. -/
structure LighthouseResult where
  categories : Categories
  audits : List (String × Audit)
  deriving Repr, DecidableEq

/-- The fixed ordered audit-key list scanned by getTopOpportunities. -/
def oppKeys : List String :=
  ["largest-contentful-paint",
   "render-blocking-resources",
   "unused-javascript",
   "unused-css-rules",
   "uses-responsive-images",
   "offscreen-images",
   "uses-text-compression"]

/-- An audit is shown unless its score is a number at least 0.9; a
null score counts as unknown and worth showing. -/
def auditShown (a : Audit) : Bool :=
  match a.score with
  | some s => decide (s < mkRat 9 10)
  | none => true

/-- audit.title || k: the title unless it is falsy, in which case the
key itself. -/
def auditTitleOrKey (k : String) (a : Audit) : String :=
  if a.title = "" then k else a.title

/-- The fallback line shown when no audit matched. -/
def oppFallback : String :=
  "No major opportunities detected (or audit data was limited)."

/-- lighthouseResult?.audits || \x7b\x7d: the audits map, or empty when
the lighthouseResult section or its audits are absent. -/
def auditsOf : Option LighthouseResult → List (String × Audit)
  | some l => l.audits
  | none => []

/-- getTopOpportunities from src/app.js: scan oppKeys in order, keep
titles of present audits that are not already good, cap at 5, and fall
back to the single generic line when nothing matched. -/
def getTopOpportunities (lighthouseResult : Option LighthouseResult) : List String :=
  let audits := auditsOf lighthouseResult
  let items := oppKeys.filterMap fun k =>
    match audits.lookup k with
    | none => none
    | some a => if auditShown a then some (auditTitleOrKey k a) else none
  if items = [] then [oppFallback] else items.take 5

/-- The whole PSI report as the client consumes it: the
lighthouseResult section and the loadingExperience.metrics object,
each possibly absent. -/
structure PsiReport where
  lighthouseResult : Option LighthouseResult
  loadingExperienceMetrics : Option Metrics
  deriving Repr, DecidableEq

/-- max 0 (min 1 q), the clamp used by the mock generator. -/
def clamp01 (q : ℚ) : ℚ := max 0 (min 1 q)

/-- The seed of the mock generator: Math.min(20, url.length % 20). -/
def mockSeed (url : String) : ℕ := min 20 (url.length % 20)

/-- base + seed/100, clamped to [0,1]. -/
def mockScore01 (seed : ℕ) (base : ℚ) : ℚ := clamp01 (base + (seed : ℚ) / 100)

/-- getMockPsiResponse from src/app.js: deterministic demo report whose
category scores vary with the URL length and whose audits and field
metrics are fixed. -/
def getMockPsiResponse (url : String) : PsiReport :=
  let seed := mockSeed url
  { lighthouseResult := some
      { categories :=
          { performance := some (mockScore01 seed (mkRat 72 100))
            accessibility := some (mockScore01 seed (mkRat 88 100))
            bestPractices := some (mockScore01 seed (mkRat 86 100))
            seo := some (mockScore01 seed (mkRat 84 100)) }
        audits :=
          [("largest-contentful-paint", ⟨some (mkRat 55 100), "Improve Largest Contentful Paint"⟩),
           ("render-blocking-resources", ⟨some (mkRat 65 100), "Eliminate render-blocking resources"⟩),
           ("unused-javascript", ⟨some (mkRat 7 10), "Reduce unused JavaScript"⟩),
           ("unused-css-rules", ⟨some (mkRat 75 100), "Reduce unused CSS"⟩),
           ("offscreen-images", ⟨some (mkRat 8 10), "Defer offscreen images"⟩),
           ("uses-text-compression", ⟨some (mkRat 85 100), "Enable text compression"⟩)] }
    loadingExperienceMetrics := some
      { lcp := some ⟨some 2500⟩
        inp := some ⟨some 190⟩
        cls := some ⟨some 8⟩
        fid := none } }

/-- Scanner for the tag-stripping regex replace.  The first argument
holds, reversed, the characters read since an as-yet-unclosed '<'
(tag candidate), or none when outside one.  A '>' completes the match
of <[^>]*> and the whole candidate is dropped; input ending inside a
candidate means the regex never matched that '<', so the candidate is
emitted verbatim. -/
def stripTagsAux : Option (List Char) → List Char → List Char
  | none, [] => []
  | some pending, [] => pending.reverse
  | none, c :: rest =>
    if c = '<' then stripTagsAux (some [c]) rest
    else c :: stripTagsAux none rest
  | some pending, c :: rest =>
    if c = '>' then stripTagsAux none rest
    else stripTagsAux (some (c :: pending)) rest

/-- The tag-stripping regex replace from the submit handler catch
block: every match of <[^>]*> (a '<' through the first following '>')
is removed. -/
def stripTags (l : List Char) : List Char := stripTagsAux none l

/-- Scanner for the whitespace-collapsing regex replace; the flag
records whether the previous character was whitespace (so a run emits
one space in total). -/
def collapseWsAux : Bool → List Char → List Char
  | _, [] => []
  | prevWs, c :: rest =>
    if isWsChar c then
      if prevWs then collapseWsAux true rest
      else ' ' :: collapseWsAux true rest
    else c :: collapseWsAux false rest

/-- The whitespace-collapsing regex replace: each maximal run of
whitespace becomes a single space. -/
def collapseWs (l : List Char) : List Char := collapseWsAux false l

/-- The sanitize pipeline of the submit handler catch block: strip
HTML tags, collapse whitespace runs, trim, and keep at most 220
characters. -/
def sanitizeErrMessage (raw : String) : String :=
  ⟨(trimL (collapseWs (stripTags raw.data))).take 220⟩

/-- String(err?.message || "Something went wrong. Try again."): the
fallback applies when the message is absent or empty. -/
def errRawMessage (message : Option String) : String :=
  match message with
  | some m => if m = "" then "Something went wrong. Try again." else m
  | none => "Something went wrong. Try again."

/-- The error text thrown by the live branch on a non-ok response:
the body text, or "Request failed: <status>" when the body is
empty. -/
def liveFailureMessage (status : ℕ) (bodyText : String) : String :=
  if bodyText = "" then "Request failed: " ++ toString status else bodyText

/-- The status line shown for a caught submit-handler failure. -/
def errorStatusLine (message : Option String) : String :=
  "❌ " ++ sanitizeErrMessage (errRawMessage message)

/-- A JSON value, as the proxy passes parsed upstream bodies along. -/
inductive Json where
  | null
  | bool (b : Bool)
  | num (q : ℚ)
  | str (s : String)
  | arr (elems : List Json)
  | obj (fields : List (String × Json))

/-- The bodies the proxy function can produce: a bare ok:false error
object, an ok:false error object with upstream details, or the
upstream JSON payload relayed on success. -/
inductive PsiBody where
  | errMsg (error : String)
  | errDetails (error : String) (details : Json)
  | payload (data : Json)

/-- Does a proxy body carry ok:false? -/
def PsiBody.okFalse : PsiBody → Bool
  | .errMsg _ => true
  | .errDetails _ _ => true
  | .payload _ => false

/-- A proxy HTTP response: status, body, and the Cache-Control header
when one is set. -/
structure PsiResponse where
  status : ℕ
  body : PsiBody
  cacheControl : Option String

/-- The outcome of the proxy's single upstream fetch: a transport
failure, or a response whose body either parses as JSON or makes
res.json() throw with a message. -/
inductive UpstreamOutcome where
  | transportError (message : String)
  | response (status : ℕ) (jsonBody : Except String Json)

/-- Response.ok: status in the 200-299 range. -/
def httpOk (status : ℕ) : Bool :=
  decide (200 ≤ status) && decide (status < 300)

/-- The Netlify proxy handler from src/netlify/functions/psi.js, as a
function of the url query parameter (none when absent, and an empty
value is falsy like an absent one), the PSI_API_KEY environment
variable, and the upstream fetch outcome.  The upstream body is parsed
as JSON before res.ok is inspected, so a parse failure on any status
lands in the outer catch. -/
def psiHandler (target : Option String) (apiKey : Option String)
    (upstream : UpstreamOutcome) : PsiResponse :=
  if target = none ∨ target = some "" then
    ⟨400, .errMsg "Missing ?url=", none⟩
  else if apiKey = none ∨ apiKey = some "" then
    ⟨500, .errMsg "Server missing PSI_API_KEY env var", none⟩
  else
    match upstream with
    | .transportError msg => ⟨500, .errMsg msg, none⟩
    | .response st jsonBody =>
      match jsonBody with
      | .error msg => ⟨500, .errMsg msg, none⟩
      | .ok data =>
        if httpOk st then ⟨200, .payload data, some "public, max-age=300"⟩
        else ⟨st, .errDetails "PSI request failed" data, none⟩

/-- Observable steps of one run of the client submit handler, in
order: hiding/clearing the previous results, status updates, toggling
the submit control, issuing the proxy request, and rendering. -/
inductive UiEvent where
  | hideResults
  | clearOpps
  | setStatus (msg : String) (kind : String)
  | setLoading (isLoading : Bool)
  | request (url : String)
  | render (report : PsiReport)
  | showResults

/-- The client mode constant (demo or live). -/
inductive ClientMode where
  | demo
  | live

/-- The outcome of the client's one fetch to the proxy: transport
failure, or a response with a status, a body text (read on the error
path), and the JSON parse attempt (used on the ok path). -/
inductive ClientFetch where
  | transportError (message : String)
  | response (status : ℕ) (bodyText : String) (jsonBody : Except String PsiReport)

/-- The rendering tail of a successful submission: write the score,
metric and opportunity fields from the report, then un-hide the
results block. -/
def renderEvents (data : PsiReport) : List UiEvent :=
  [.render data, .showResults]

/-- The try-block body of the submit handler (demo/live variant of
src/app.js): the events it performs and the message of the error it
throws, if it throws.  The request event records the normalized URL
handed to fetch (percent-encoding abstracted). -/
def submitTryBody (mode : ClientMode) (liveEndpoint : String) (normalized : String)
    (fetched : ClientFetch) : List UiEvent × Option String :=
  match mode with
  | .demo =>
    ([.setStatus "✅ Demo report complete (mock data)." "good"] ++
       renderEvents (getMockPsiResponse normalized), none)
  | .live =>
    if liveEndpoint = "" then ([], some "Live mode is not configured yet.")
    else
      let pre : List UiEvent :=
        [.setStatus "Running live mobile Lighthouse audit…" "", .request normalized]
      match fetched with
      | .transportError m => (pre, some m)
      | .response st bodyText jsonBody =>
        if httpOk st then
          match jsonBody with
          | .error m => (pre, some m)
          | .ok data =>
            (pre ++ [.setStatus "✅ Live report complete." "good"] ++ renderEvents data,
             none)
        else (pre, some (liveFailureMessage st bodyText))

/-- The catch-block events: a thrown error becomes one sanitized
status line; no error, no events. -/
def catchEvents (thrown : Option String) : List UiEvent :=
  match thrown with
  | some e => [.setStatus (errorStatusLine (some e)) "bad"]
  | none => []

/-- One full run of the submit handler: clear previous results, then
either reject the URL and stop, or enter loading, run the try body,
surface a thrown error through the sanitizer, and leave loading in the
finally block. -/
def runSubmit (mode : ClientMode) (liveEndpoint : String) (urlValue : String)
    (fetched : ClientFetch) : List UiEvent :=
  [.hideResults, .clearOpps] ++
  match normalizeUrl urlValue with
  | none =>
    [.setStatus "❌ Please enter a valid URL (example: https://example.com)." "bad"]
  | some normalized =>
    let tb := submitTryBody mode liveEndpoint normalized fetched
    [.setLoading true, .setStatus "Running mobile Lighthouse audit…" ""] ++ tb.1 ++
    catchEvents tb.2 ++ [.setLoading false]

/-- The disabled state of the submit control after a list of events,
starting from a given state: only setLoading events touch it. -/
def buttonDisabledAfter (events : List UiEvent) (init : Bool) : Bool :=
  events.foldl (fun st e => match e with | .setLoading b => b | _ => st) init

/-- Is an event a setLoading toggle? -/
def UiEvent.isSetLoading : UiEvent → Bool
  | .setLoading _ => true
  | _ => false

/-- Is an event the proxy request? -/
def UiEvent.isRequest : UiEvent → Bool
  | .request _ => true
  | _ => false

/-- Claim C8: for every numeric score in [0,1], toPercent returns the
decimal string of round(score*100), an integer between 0 and 100; any
non-numeric input (null or absent, modelled as none) returns the fixed
placeholder.  The function is total, so it never throws. -/
theorem toPercent_claim (q : ℚ) (h0 : 0 ≤ q) (h1 : q ≤ 1) :
    toPercent (some q) = toString (jsRound (q * 100))
    ∧ 0 ≤ jsRound (q * 100) ∧ jsRound (q * 100) ≤ 100
    ∧ toPercent none = "—" := by
  refine ⟨rfl, ?_, ?_, rfl⟩
  · exact Int.le_floor.mpr (by push_cast; linarith)
  · have h : jsRound (q * 100) < 101 := by
      unfold jsRound
      exact Int.floor_lt.mpr (by push_cast; linarith)
    omega

/-- Witness for toPercent_claim at q = 1/2. -/
theorem toPercent_claim_witness :
    toPercent (some (mkRat 1 2)) = toString (jsRound (mkRat 1 2 * 100))
    ∧ 0 ≤ jsRound (mkRat 1 2 * 100) ∧ jsRound (mkRat 1 2 * 100) ≤ 100
    ∧ toPercent none = "—" :=
  toPercent_claim (mkRat 1 2) (by decide) (by decide)

/-- Claim C3: the demo report is a deterministic function of the
normalized URL (any two URLs agreeing on length mod 20 get the same
report, so equal URLs trivially do); the seed lies in [0,20); each
category score is the fixed base plus seed/100, clamped to [0,1]; and
every synthesized score lies in [0,1]. -/
theorem getMockPsiResponse_claim (url : String) :
    mockSeed url < 20
    ∧ (∃ lhr, (getMockPsiResponse url).lighthouseResult = some lhr
        ∧ lhr.categories.performance =
            some (clamp01 (mkRat 72 100 + (mockSeed url : ℚ) / 100))
        ∧ lhr.categories.accessibility =
            some (clamp01 (mkRat 88 100 + (mockSeed url : ℚ) / 100))
        ∧ lhr.categories.bestPractices =
            some (clamp01 (mkRat 86 100 + (mockSeed url : ℚ) / 100))
        ∧ lhr.categories.seo =
            some (clamp01 (mkRat 84 100 + (mockSeed url : ℚ) / 100)))
    ∧ (∀ b : ℚ, 0 ≤ mockScore01 (mockSeed url) b ∧ mockScore01 (mockSeed url) b ≤ 1)
    ∧ (∀ url2 : String, url.length % 20 = url2.length % 20 →
        getMockPsiResponse url = getMockPsiResponse url2) := by
  refine ⟨?_, ⟨_, rfl, rfl, rfl, rfl, rfl⟩, ?_, ?_⟩
  · exact lt_of_le_of_lt (min_le_right _ _) (Nat.mod_lt _ (by norm_num))
  · intro b
    exact ⟨le_max_left _ _, max_le zero_le_one (min_le_left _ _)⟩
  · intro url2 h
    simp [getMockPsiResponse, mockSeed, h]

/-- Witness for getMockPsiResponse_claim at url = "ab" and url2 = "ba". -/
theorem getMockPsiResponse_claim_witness :
    mockSeed "ab" < 20 ∧ getMockPsiResponse "ab" = getMockPsiResponse "ba" :=
  ⟨(getMockPsiResponse_claim "ab").1,
   (getMockPsiResponse_claim "ab").2.2.2 "ba" (by decide)⟩

/-- Specification-side predicate: the fixed key k yields an item, i.e.
its audit entry is present and not already good. -/
def worthShowing (audits : List (String × Audit)) (k : String) : Bool :=
  match audits.lookup k with
  | some a => auditShown a
  | none => false

/-- The title contributed by key k (its audit title, or the key itself
when the title is falsy). -/
def shownTitle (audits : List (String × Audit)) (k : String) : String :=
  match audits.lookup k with
  | some a => auditTitleOrKey k a
  | none => k

/-- Specification-side selection: the titles of the worth-showing keys,
in the fixed key order, before the cap and the fallback. -/
def selectedTitles (audits : List (String × Audit)) : List String :=
  (oppKeys.filter (worthShowing audits)).map (shownTitle audits)

theorem filterMap_if_eq_filter_map {α β : Type} (p : α → Bool) (g : α → β)
    (l : List α) :
    l.filterMap (fun a => if p a then some (g a) else none) = (l.filter p).map g := by
  induction l with
  | nil => rfl
  | cons x xs ih =>
    by_cases h : p x = true <;>
      simp [List.filterMap_cons, List.filter_cons, h, ih]

theorem getTopOpportunities_eq (lhr : Option LighthouseResult) :
    getTopOpportunities lhr =
      if selectedTitles (auditsOf lhr) = [] then [oppFallback]
      else (selectedTitles (auditsOf lhr)).take 5 := by
  have hfun : (fun k => match (auditsOf lhr).lookup k with
      | none => none
      | some a => if auditShown a then some (auditTitleOrKey k a) else none) =
      (fun k => if worthShowing (auditsOf lhr) k
                then some (shownTitle (auditsOf lhr) k) else none) := by
    funext k
    cases h : (auditsOf lhr).lookup k <;> simp [worthShowing, shownTitle, h]
  unfold getTopOpportunities selectedTitles
  simp only [hfun, filterMap_if_eq_filter_map]

/-- Claim C1: getTopOpportunities scans the fixed ordered key list and
keeps, in that order, the title of each present audit whose score is
not a number at least 0.9 (null or absent scores count as worth
showing); the output is capped at 5 titles, and when no key yields an
item the result is exactly the one-element fallback list, never the
empty list. -/
theorem getTopOpportunities_claim (lhr : Option LighthouseResult) :
    (getTopOpportunities lhr).length ≤ 5
    ∧ getTopOpportunities lhr ≠ []
    ∧ (selectedTitles (auditsOf lhr) = [] → getTopOpportunities lhr = [oppFallback])
    ∧ (selectedTitles (auditsOf lhr) ≠ [] →
        getTopOpportunities lhr = (selectedTitles (auditsOf lhr)).take 5) := by
  have take5_ne_nil : ∀ l : List String, l ≠ [] → l.take 5 ≠ [] := by
    intro l hl
    cases l with
    | nil => exact absurd rfl hl
    | cons a as => simp
  by_cases h : selectedTitles (auditsOf lhr) = []
  · rw [getTopOpportunities_eq]
    simp [h]
  · rw [getTopOpportunities_eq, if_neg h]
    refine ⟨?_, take5_ne_nil _ h, fun hc => absurd hc h, fun _ => rfl⟩
    rw [List.length_take]
    exact min_le_left _ _

/-- Witness for getTopOpportunities_claim: an absent lighthouseResult
yields the fallback, and the mock report (which has matching audits
below 0.9) yields the capped selection. -/
theorem getTopOpportunities_claim_witness :
    getTopOpportunities none = [oppFallback]
    ∧ getTopOpportunities ((getMockPsiResponse "x").lighthouseResult) =
        (selectedTitles (auditsOf ((getMockPsiResponse "x").lighthouseResult))).take 5 :=
  ⟨(getTopOpportunities_claim none).2.2.1 (by decide),
   (getTopOpportunities_claim ((getMockPsiResponse "x").lighthouseResult)).2.2.2
     (by decide)⟩

/-- Claim C6: Core-Web-Vitals formatting shows the numeric percentile
in the metric's natural unit — LCP as seconds to one decimal place
(2500 renders "2.5 s"), INP as whole milliseconds (190 renders
"190 ms"), CLS as the unitless raw number (8 renders "8"); when INP is
absent the legacy FIRST_INPUT_DELAY_MS metric takes its place in
milliseconds; a metric object without a numeric percentile, or an
absent metric object, renders the placeholder. -/
theorem formatCwvMetric_claim (p : ℤ) (ms : Metrics)
    (hinp : ms.inp = none) (m : Metric) (hfid : ms.fid = some m) :
    formatCwvMetric (some ⟨some 2500⟩) .s = "2.5 s"
    ∧ formatCwvMetric (some ⟨some 190⟩) .ms = "190 ms"
    ∧ formatCwvMetric (some ⟨some 8⟩) .raw = "8"
    ∧ formatCwvMetric (some ⟨some p⟩) .ms = toString p ++ " ms"
    ∧ formatCwvMetric (some ⟨some p⟩) .s = toFixed1Of1000th p ++ " s"
    ∧ formatCwvMetric (some ⟨some p⟩) .raw = toString p
    ∧ (∀ u, formatCwvMetric (some ⟨none⟩) u = "—")
    ∧ (∀ u, formatCwvMetric none u = "—")
    ∧ lcpCell none = "—" ∧ inpCell none = "—" ∧ clsCell none = "—"
    ∧ inpCell (some ms) = formatCwvMetric (some m) .ms := by
  have h2500 : formatCwvMetric (some ⟨some 2500⟩) .s = "2.5 s" := by
    have h : jsRound (((2500 : ℤ) : ℚ) / 100) = 25 := by norm_num [jsRound]
    simp only [formatCwvMetric, toFixed1Of1000th, h]
    rfl
  refine ⟨h2500, rfl, rfl, rfl, rfl, rfl, fun u => by cases u <;> rfl,
    fun u => by cases u <;> rfl, rfl, rfl, rfl, ?_⟩
  simp [inpCell, hinp, hfid]

/-- Witness for formatCwvMetric_claim: a metrics object with INP
absent and the legacy FID metric present at percentile 190. -/
theorem formatCwvMetric_claim_witness :
    inpCell (some ⟨none, none, none, some ⟨some 190⟩⟩) =
      formatCwvMetric (some ⟨some 190⟩) .ms :=
  (formatCwvMetric_claim 0 ⟨none, none, none, some ⟨some 190⟩⟩ rfl ⟨some 190⟩
    rfl).2.2.2.2.2.2.2.2.2.2.2

/-- No two adjacent characters are both whitespace. -/
def NoWsRun (l : List Char) : Prop :=
  List.Chain' (fun a c => isWsChar a = false ∨ isWsChar c = false) l

theorem collapseWsAux_head_true :
    ∀ l : List Char, ∀ c, (collapseWsAux true l).head? = some c → isWsChar c = false := by
  intro l
  induction l with
  | nil => intro c h; simp [collapseWsAux] at h
  | cons a as ih =>
    intro c h
    by_cases ha : isWsChar a = true
    · rw [collapseWsAux, if_pos ha, if_pos rfl] at h
      exact ih c h
    · rw [collapseWsAux, if_neg ha] at h
      simp at h
      subst h
      exact Bool.not_eq_true _ |>.mp ha

theorem collapseWsAux_noWsRun : ∀ (l : List Char) (b : Bool), NoWsRun (collapseWsAux b l) := by
  intro l
  induction l with
  | nil => intro b; cases b <;> exact List.chain'_nil
  | cons a as ih =>
    intro b
    by_cases ha : isWsChar a = true
    · cases b with
      | true =>
        rw [collapseWsAux, if_pos ha, if_pos rfl]
        exact ih true
      | false =>
        rw [collapseWsAux, if_pos ha, if_neg (by simp)]
        rw [NoWsRun, List.chain'_cons']
        refine ⟨fun y hy => Or.inr (collapseWsAux_head_true as y hy), ih true⟩
    · rw [collapseWsAux, if_neg ha]
      rw [NoWsRun, List.chain'_cons']
      refine ⟨fun y hy => Or.inl (Bool.not_eq_true _ |>.mp ha), ih false⟩

theorem dropWhile_isSuffix (p : Char → Bool) :
    ∀ l : List Char, l.dropWhile p <:+ l := by
  intro l
  induction l with
  | nil => exact List.suffix_refl _
  | cons a as ih =>
    by_cases ha : p a = true
    · rw [List.dropWhile_cons, if_pos ha]
      exact ih.trans (List.suffix_cons a as)
    · rw [List.dropWhile_cons, if_neg ha]

theorem trimL_noWsRun {l : List Char} (h : NoWsRun l) : NoWsRun (trimL l) := by
  unfold trimL
  have h1 : NoWsRun (l.dropWhile isWsChar) :=
    List.Chain'.suffix h (dropWhile_isSuffix _ l)
  have h2 : NoWsRun (l.dropWhile isWsChar).reverse := by
    rw [NoWsRun, List.chain'_reverse]
    refine List.Chain'.imp ?_ h1
    intro a c hac
    exact hac.symm
  have h3 : NoWsRun ((l.dropWhile isWsChar).reverse.dropWhile isWsChar) :=
    List.Chain'.suffix h2 (dropWhile_isSuffix _ _)
  rw [NoWsRun, List.chain'_reverse]
  refine List.Chain'.imp ?_ h3
  intro a c hac
  exact hac.symm

theorem sanitizeErrMessage_noWsRun (raw : String) : NoWsRun (sanitizeErrMessage raw).data := by
  have h := trimL_noWsRun (collapseWsAux_noWsRun (stripTags raw.data) false)
  exact List.Chain'.take h 220

/-- Claim C7: a failure caught by the submit handler surfaces as a
status line derived from the error message — for a non-ok response the
body text, or "Request failed: <status>" when that body is empty —
passed through the sanitizer (tags stripped, whitespace runs collapsed
so no two adjacent whitespace characters remain, trimmed, truncated to
at most 220 characters); a 404 reply with body "Not Found" produces a
status line containing "Not Found". -/
theorem sanitize_claim (raw : String) (st : ℕ) (bodyText : String) (hb : bodyText ≠ "") :
    (sanitizeErrMessage raw).length ≤ 220
    ∧ NoWsRun (sanitizeErrMessage raw).data
    ∧ (∀ m : Option String, errorStatusLine m = "❌ " ++ sanitizeErrMessage (errRawMessage m))
    ∧ liveFailureMessage st bodyText = bodyText
    ∧ liveFailureMessage 404 "" = "Request failed: 404"
    ∧ sanitizeErrMessage "<b>Oops</b>   it  broke " = "Oops it broke"
    ∧ errorStatusLine (some (liveFailureMessage 404 "Not Found")) = "❌ Not Found"
    ∧ "Not Found".data <:+:
        (errorStatusLine (some (liveFailureMessage 404 "Not Found"))).data := by
  refine ⟨?_, sanitizeErrMessage_noWsRun raw, fun m => rfl, ?_, rfl, by rfl, by rfl, by decide⟩
  · show (List.take 220 _).length ≤ 220
    rw [List.length_take]
    exact min_le_left _ _
  · rw [liveFailureMessage, if_neg hb]

/-- Witness for sanitize_claim at a concrete 404 response with body
"Not Found". -/
theorem sanitize_claim_witness :
    liveFailureMessage 404 "Not Found" = "Not Found"
    ∧ errorStatusLine (some (liveFailureMessage 404 "Not Found")) = "❌ Not Found" :=
  ⟨(sanitize_claim "x" 404 "Not Found" (by decide)).2.2.2.1,
   (sanitize_claim "x" 404 "Not Found" (by decide)).2.2.2.2.2.2.1⟩

/-- Counterexample to claim C4 as stated: the handler parses the
upstream body as JSON before checking the status, so a non-success
upstream response (404) whose body is not valid JSON is answered with
500 and the parse-error message, not with the relayed 404 status and a
details body. -/
theorem psiHandler_relay_counterexample :
    psiHandler (some "https://example.com/") (some "key")
        (.response 404 (.error "Unexpected token <")) =
      ⟨500, .errMsg "Unexpected token <", none⟩
    ∧ (psiHandler (some "https://example.com/") (some "key")
        (.response 404 (.error "Unexpected token <"))).status ≠ 404 :=
  ⟨rfl, by decide⟩

/-- Claim C4 (amended): past validation, a transport-level fetch
failure yields 500 with the failure message; an upstream response
whose body fails to parse as JSON yields 500 with the parse-error
message whatever the status; a non-success status with a JSON body is
relayed with that same status and an ok:false body carrying
"PSI request failed" and the upstream JSON as details; a success
status with a JSON body is relayed as 200 with that JSON and
Cache-Control public, max-age=300. -/
theorem psiHandler_relay_claim (t k : String) (ht : t ≠ "") (hk : k ≠ "") :
    (∀ m, psiHandler (some t) (some k) (.transportError m) = ⟨500, .errMsg m, none⟩)
    ∧ (∀ st m, psiHandler (some t) (some k) (.response st (.error m)) =
        ⟨500, .errMsg m, none⟩)
    ∧ (∀ st data, httpOk st = false →
        psiHandler (some t) (some k) (.response st (.ok data)) =
          ⟨st, .errDetails "PSI request failed" data, none⟩)
    ∧ (∀ st data, httpOk st = true →
        psiHandler (some t) (some k) (.response st (.ok data)) =
          ⟨200, .payload data, some "public, max-age=300"⟩) := by
  refine ⟨fun m => ?_, fun st m => ?_, fun st data h => ?_, fun st data h => ?_⟩
  · simp [psiHandler, ht, hk]
  · simp [psiHandler, ht, hk]
  · simp [psiHandler, ht, hk, h]
  · simp [psiHandler, ht, hk, h]

/-- Witness for psiHandler_relay_claim at concrete inputs for each
upstream outcome. -/
theorem psiHandler_relay_claim_witness :
    psiHandler (some "https://example.com/") (some "key")
        (.transportError "fetch failed") = ⟨500, .errMsg "fetch failed", none⟩
    ∧ psiHandler (some "https://example.com/") (some "key")
        (.response 503 (.ok .null)) = ⟨503, .errDetails "PSI request failed" .null, none⟩
    ∧ psiHandler (some "https://example.com/") (some "key")
        (.response 200 (.ok .null)) = ⟨200, .payload .null, some "public, max-age=300"⟩ :=
  ⟨(psiHandler_relay_claim "https://example.com/" "key" (by decide) (by decide)).1
      "fetch failed",
   (psiHandler_relay_claim "https://example.com/" "key" (by decide) (by decide)).2.2.1
      503 .null (by decide),
   (psiHandler_relay_claim "https://example.com/" "key" (by decide) (by decide)).2.2.2
      200 .null (by decide)⟩

/-- Counterexample to claim C5 as stated: a url parameter that is
present with an empty value is falsy, so with the API key unset the
handler still answers 400 (missing url), not the claimed 500. -/
theorem psiHandler_validation_counterexample :
    psiHandler (some "") none (.transportError "x") =
      ⟨400, .errMsg "Missing ?url=", none⟩
    ∧ (psiHandler (some "") none (.transportError "x")).status ≠ 500 :=
  ⟨rfl, by decide⟩

/-- Claim C5 (amended): an absent url parameter — or one present with
an empty value, which the falsy check treats the same — yields 400
with the fixed missing-url error body, independent of the upstream
outcome (so the upstream is never contacted); a nonempty url with the
API key unset yields 500 with an ok:false body, again independent of
the upstream outcome. -/
theorem psiHandler_validation_claim (k : Option String) (t : String) (ht : t ≠ "")
    (u u2 : UpstreamOutcome) :
    psiHandler none k u = ⟨400, .errMsg "Missing ?url=", none⟩
    ∧ psiHandler (some "") k u = ⟨400, .errMsg "Missing ?url=", none⟩
    ∧ psiHandler none k u = psiHandler none k u2
    ∧ psiHandler (some t) none u =
        ⟨500, .errMsg "Server missing PSI_API_KEY env var", none⟩
    ∧ (psiHandler (some t) none u).body.okFalse = true
    ∧ psiHandler (some t) none u = psiHandler (some t) none u2 := by
  have h400 : ∀ ku uu, psiHandler none ku uu = ⟨400, .errMsg "Missing ?url=", none⟩ := by
    intro ku uu
    simp [psiHandler]
  have h400e : psiHandler (some "") k u = ⟨400, .errMsg "Missing ?url=", none⟩ := by
    simp [psiHandler]
  have h500 : ∀ uu, psiHandler (some t) none uu =
      ⟨500, .errMsg "Server missing PSI_API_KEY env var", none⟩ := by
    intro uu
    simp [psiHandler, ht]
  refine ⟨h400 k u, h400e, (h400 k u).trans (h400 k u2).symm, h500 u, ?_, 
    (h500 u).trans (h500 u2).symm⟩
  rw [h500 u]
  rfl

/-- Witness for psiHandler_validation_claim at a concrete nonempty url
and two distinct upstream outcomes. -/
theorem psiHandler_validation_claim_witness :
    psiHandler none none (.transportError "x") =
      ⟨400, .errMsg "Missing ?url=", none⟩
    ∧ psiHandler (some "https://example.com/") none (.transportError "x") =
        ⟨500, .errMsg "Server missing PSI_API_KEY env var", none⟩
    ∧ psiHandler (some "https://example.com/") none (.transportError "x") =
        psiHandler (some "https://example.com/") none (.response 200 (.ok .null)) :=
  ⟨(psiHandler_validation_claim none "https://example.com/" (by decide)
      (.transportError "x") (.response 200 (.ok .null))).1,
   (psiHandler_validation_claim none "https://example.com/" (by decide)
      (.transportError "x") (.response 200 (.ok .null))).2.2.2.1,
   (psiHandler_validation_claim none "https://example.com/" (by decide)
      (.transportError "x") (.response 200 (.ok .null))).2.2.2.2.2⟩

theorem buttonDisabledAfter_append (l1 l2 : List UiEvent) (b : Bool) :
    buttonDisabledAfter (l1 ++ l2) b = buttonDisabledAfter l2 (buttonDisabledAfter l1 b) := by
  simp [buttonDisabledAfter, List.foldl_append]

theorem submitTryBody_no_setLoading (mode : ClientMode) (liveEndpoint normalized : String)
    (fetched : ClientFetch) :
    (submitTryBody mode liveEndpoint normalized fetched).1.all
      (fun e => !e.isSetLoading) = true := by
  cases mode with
  | demo => simp [submitTryBody, renderEvents, UiEvent.isSetLoading]
  | live =>
    by_cases he : liveEndpoint = ""
    · simp [submitTryBody, he]
    · cases fetched with
      | transportError m => simp [submitTryBody, he, UiEvent.isSetLoading]
      | response st bodyText jsonBody =>
        by_cases hok : httpOk st = true
        · cases jsonBody with
          | error m => simp [submitTryBody, he, hok, UiEvent.isSetLoading]
          | ok data =>
            simp [submitTryBody, he, hok, renderEvents, UiEvent.isSetLoading]
        · simp [submitTryBody, he, hok, UiEvent.isSetLoading]

/-- Claim C9: in every run of the submit handler the submit control
ends enabled; on validation rejection no loading toggle happens at
all; the previous results are cleared by the first two steps, before
any request can be issued; and on the loading path the trace is
exactly clear, enter loading, a loading-free middle, and the finally
re-enable. -/
theorem runSubmit_claim (mode : ClientMode) (liveEndpoint urlValue : String)
    (fetched : ClientFetch) :
    buttonDisabledAfter (runSubmit mode liveEndpoint urlValue fetched) false = false
    ∧ (normalizeUrl urlValue = none →
        (runSubmit mode liveEndpoint urlValue fetched).all
          (fun e => !e.isSetLoading) = true)
    ∧ (∃ rest, runSubmit mode liveEndpoint urlValue fetched =
        .hideResults :: .clearOpps :: rest)
    ∧ (∀ normalized, normalizeUrl urlValue = some normalized →
        ∃ mid, runSubmit mode liveEndpoint urlValue fetched =
            [.hideResults, .clearOpps, .setLoading true,
             .setStatus "Running mobile Lighthouse audit…" ""] ++ mid ++
              [.setLoading false]
          ∧ mid.all (fun e => !e.isSetLoading) = true) := by
  cases h : normalizeUrl urlValue with
  | none =>
    refine ⟨?_, fun _ => ?_, ?_, fun normalized hn => ?_⟩
    · simp [runSubmit, h, buttonDisabledAfter]
    · simp [runSubmit, h, UiEvent.isSetLoading]
    · exact ⟨[.setStatus "❌ Please enter a valid URL (example: https://example.com)." "bad"],
        by simp [runSubmit, h]⟩
    · exact absurd hn (by simp)
  | some n =>
    have htb := submitTryBody_no_setLoading mode liveEndpoint n fetched
    have hcatch : (catchEvents (submitTryBody mode liveEndpoint n fetched).2).all
        (fun e => !e.isSetLoading) = true := by
      cases h2 : (submitTryBody mode liveEndpoint n fetched).2 <;>
        simp [catchEvents, UiEvent.isSetLoading]
    have hshape : runSubmit mode liveEndpoint urlValue fetched =
        [.hideResults, .clearOpps, .setLoading true,
         .setStatus "Running mobile Lighthouse audit…" ""] ++
          ((submitTryBody mode liveEndpoint n fetched).1 ++
            catchEvents (submitTryBody mode liveEndpoint n fetched).2) ++
          [.setLoading false] := by
      simp [runSubmit, h]
    refine ⟨?_, fun hn => ?_, ?_, fun normalized hn => ?_⟩
    · rw [hshape, buttonDisabledAfter_append]
      rfl
    · exact absurd hn (by simp)
    · exact ⟨[.setLoading true, .setStatus "Running mobile Lighthouse audit…" ""] ++
        ((submitTryBody mode liveEndpoint n fetched).1 ++
          catchEvents (submitTryBody mode liveEndpoint n fetched).2) ++
        [.setLoading false], by rw [hshape]; simp⟩
    · injection hn with hn2
      subst hn2
      exact ⟨_, hshape, by simp [List.all_append, htb, hcatch]⟩

/-- Witness for runSubmit_claim: a rejected blank URL leaves the
control untouched, and a demo run on "example.com" has the full
loading-bracketed shape. -/
theorem runSubmit_claim_witness :
    (runSubmit .demo "" " " (.transportError "x")).all
      (fun e => !e.isSetLoading) = true
    ∧ ∃ mid, runSubmit .demo "" "example.com" (.transportError "x") =
        [.hideResults, .clearOpps, .setLoading true,
         .setStatus "Running mobile Lighthouse audit…" ""] ++ mid ++
          [.setLoading false]
      ∧ mid.all (fun e => !e.isSetLoading) = true :=
  ⟨(runSubmit_claim .demo "" " " (.transportError "x")).2.1 (by decide),
   (runSubmit_claim .demo "" "example.com" (.transportError "x")).2.2.2
     "https://example.com/" (by decide)⟩

theorem splitHost_snd_shape :
    ∀ rest : List Char, (splitHost rest).2 = [] ∨ ∃ t, (splitHost rest).2 = '/' :: t := by
  intro rest
  induction rest with
  | nil => left; rfl
  | cons c cs ih =>
    by_cases hc : c = '/'
    · right
      exact ⟨cs, by simp [splitHost, hc]⟩
    · simpa [splitHost, hc] using ih

theorem splitHost_append (host p : List Char)
    (hh : host.all (fun c => !(c = '/')) = true)
    (hp : p = [] ∨ ∃ t, p = '/' :: t) :
    splitHost (host ++ p) = (host, p) := by
  induction host with
  | nil =>
    rcases hp with h0 | ⟨t, ht⟩
    · subst h0; rfl
    · subst ht; simp [splitHost]
  | cons c cs ih =>
    simp only [List.all_cons, Bool.and_eq_true] at hh
    have hc : ¬(c = '/') := by simpa using hh.1
    simp [splitHost, hc, ih hh.2]

theorem parseAfterScheme_inv {sec : Bool} {rest : List Char} {u : UrlRec}
    (h : parseAfterScheme sec rest = some u) :
    u.secure = sec ∧ u.host ≠ [] ∧ u.host.all isHostChar = true
    ∧ u.path.all isPathChar = true ∧ ∃ t, u.path = '/' :: t := by
  simp only [parseAfterScheme] at h
  by_cases h1 : (splitHost rest).1 = []
  · rw [if_pos h1] at h
    exact absurd h (by simp)
  · rw [if_neg h1] at h
    by_cases h2 : ((splitHost rest).1.all isHostChar
        && (splitHost rest).2.all isPathChar) = true
    · rw [if_pos h2] at h
      simp only [Bool.and_eq_true] at h2
      injection h with h3
      subst h3
      dsimp only
      refine ⟨rfl, h1, h2.1, ?_, ?_⟩
      · by_cases hp2 : (splitHost rest).2 = []
        · rw [if_pos hp2]; decide
        · rw [if_neg hp2]; exact h2.2
      · by_cases hp2 : (splitHost rest).2 = []
        · rw [if_pos hp2]; exact ⟨[], rfl⟩
        · rw [if_neg hp2]
          rcases splitHost_snd_shape rest with h4 | ⟨t, h4⟩
          · exact absurd h4 hp2
          · exact ⟨t, h4⟩
    · rw [if_neg h2] at h
      exact absurd h (by simp)

theorem urlParseL_inv {l : List Char} {u : UrlRec} (h : urlParseL l = some u) :
    u.host ≠ [] ∧ u.host.all isHostChar = true ∧ u.path.all isPathChar = true
    ∧ ∃ t, u.path = '/' :: t := by
  unfold urlParseL at h
  split at h
  · exact (parseAfterScheme_inv h).2
  · exact (parseAfterScheme_inv h).2
  · exact absurd h (by simp)

theorem all_nonWs_render {u : UrlRec} (hh : u.host.all isHostChar = true)
    (hp : u.path.all isPathChar = true) :
    u.render.all (fun c => !isWsChar c) = true := by
  have hs : (if u.secure then httpsChars else httpChars).all (fun c => !isWsChar c) = true := by
    cases hu : u.secure <;> decide
  have hhost : u.host.all (fun c => !isWsChar c) = true := by
    rw [List.all_eq_true] at hh ⊢
    intro c hc
    have h2 := hh c hc
    simp only [isHostChar, Bool.and_eq_true] at h2
    exact h2.1
  have hpath : u.path.all (fun c => !isWsChar c) = true := by
    rw [List.all_eq_true] at hp ⊢
    intro c hc
    exact hp c hc
  simp [UrlRec.render, List.all_append, hs, hhost, hpath]

theorem dropWhile_eq_self_of_all {l : List Char}
    (h : l.all (fun c => !isWsChar c) = true) :
    l.dropWhile isWsChar = l := by
  cases l with
  | nil => rfl
  | cons c cs =>
    simp only [List.all_cons, Bool.and_eq_true] at h
    rw [List.dropWhile_cons, if_neg (by simpa using h.1)]

theorem trimL_eq_self_of_all {l : List Char}
    (h : l.all (fun c => !isWsChar c) = true) :
    trimL l = l := by
  unfold trimL
  rw [dropWhile_eq_self_of_all h,
    dropWhile_eq_self_of_all (by simpa using h), List.reverse_reverse]

theorem startsWithL_append (p l : List Char) : startsWithL p (p ++ l) = true := by
  induction p with
  | nil => rfl
  | cons c cs ih => simp [startsWithL, ih]

theorem urlParseL_render {l : List Char} {u : UrlRec} (h : urlParseL l = some u) :
    urlParseL u.render = some u := by
  obtain ⟨hne, hh, hp, t, hpt⟩ := urlParseL_inv h
  have hslash : u.host.all (fun c => !(c = '/')) = true := by
    rw [List.all_eq_true] at hh ⊢
    intro c hc
    have h2 := hh c hc
    simp only [isHostChar, Bool.and_eq_true] at h2
    exact h2.2
  have hsplit : splitHost (u.host ++ u.path) = (u.host, u.path) :=
    splitHost_append u.host u.path hslash (Or.inr ⟨t, hpt⟩)
  have hpne : u.path ≠ [] := by rw [hpt]; simp
  have hparse : parseAfterScheme u.secure (u.host ++ u.path) = some u := by
    simp only [parseAfterScheme, hsplit]
    rw [if_neg hne, if_pos (by rw [hh, hp]; rfl), if_neg hpne]
  obtain ⟨sec, host, path⟩ := u
  cases sec
  · exact hparse
  · exact hparse

theorem withSchemeL_render (u : UrlRec) : withSchemeL u.render = u.render := by
  unfold withSchemeL
  cases hsec : u.secure
  · rw [if_pos]
    rw [UrlRec.render, hsec, if_neg (by simp), List.append_assoc, startsWithL_append]
    simp
  · rw [if_pos]
    rw [UrlRec.render, hsec, if_pos rfl, List.append_assoc, startsWithL_append]
    simp

theorem render_ne_nil (u : UrlRec) : u.render ≠ [] := by
  cases hsec : u.secure <;> simp [UrlRec.render, hsec, httpsChars, httpChars]

/-- Counterexample to claim C2 as stated: "a b" is non-empty after
trimming and has no scheme, yet prepending https:// does not give a
valid absolute URL — the space is a forbidden host code point, so the
parse fails and normalizeUrl rejects instead of returning a URL. -/
theorem normalizeUrl_counterexample :
    trimL "a b".data ≠ []
    ∧ startsWithL httpChars (trimL "a b".data) = false
    ∧ startsWithL httpsChars (trimL "a b".data) = false
    ∧ urlParseL (httpsChars ++ trimL "a b".data) = none
    ∧ normalizeUrl "a b" = none := by decide

/-- Claim C2 (amended): normalizeUrl trims and rejects every
empty/whitespace-only input; a non-empty trimmed input without an
http:// or https:// start is parsed with https:// prepended; parse
failure yields rejection; and a returned value is always the
canonical re-serialization of the parsed URL — in particular it
itself parses as a valid absolute URL whose serialization is itself,
never an arbitrary raw user string. -/
theorem normalizeUrl_claim (raw : String) :
    (trimL raw.data = [] → normalizeUrl raw = none)
    ∧ (trimL raw.data ≠ [] →
        startsWithL httpChars (trimL raw.data) = false →
        startsWithL httpsChars (trimL raw.data) = false →
        normalizeUrl raw =
          Option.map (fun u => (⟨u.render⟩ : String))
            (urlParseL (httpsChars ++ trimL raw.data)))
    ∧ (urlParseL (withSchemeL (trimL raw.data)) = none → normalizeUrl raw = none)
    ∧ (∀ r, normalizeUrl raw = some r →
        (∃ u, urlParseL (withSchemeL (trimL raw.data)) = some u ∧ r = ⟨u.render⟩)
        ∧ ∃ u2, urlParseL r.data = some u2 ∧ r.data = u2.render) := by
  refine ⟨fun h => ?_, fun h hs1 hs2 => ?_, fun h => ?_, fun r h => ?_⟩
  · simp [normalizeUrl, h]
  · rw [normalizeUrl]
    rw [if_neg h, withSchemeL, if_neg (by simp [hs1, hs2])]
    cases urlParseL (httpsChars ++ trimL raw.data) <;> rfl
  · by_cases ht : trimL raw.data = []
    · simp [normalizeUrl, ht]
    · rw [normalizeUrl]
      rw [if_neg ht, h]
  · rw [normalizeUrl] at h
    by_cases ht : trimL raw.data = []
    · rw [if_pos ht] at h
      exact absurd h (by simp)
    · rw [if_neg ht] at h
      cases hu : urlParseL (withSchemeL (trimL raw.data)) with
      | none => rw [hu] at h; exact absurd h (by simp)
      | some u =>
        rw [hu] at h
        injection h with h2
        subst h2
        exact ⟨⟨u, rfl, rfl⟩, u, urlParseL_render hu, rfl⟩

/-- Witness for normalizeUrl_claim at raw = "example.com". -/
theorem normalizeUrl_claim_witness :
    normalizeUrl "example.com" =
      Option.map (fun u => (⟨u.render⟩ : String))
        (urlParseL (httpsChars ++ trimL "example.com".data))
    ∧ ∃ u2, urlParseL "https://example.com/".data = some u2
        ∧ "https://example.com/".data = u2.render :=
  ⟨(normalizeUrl_claim "example.com").2.1 (by decide) (by decide) (by decide),
   ((normalizeUrl_claim "example.com").2.2.2 "https://example.com/" (by decide)).2⟩

/-- Claim C10: normalizeUrl is idempotent on its successes — the
canonical serialization it returns trims to itself, already carries
its scheme, and re-parses to the same URL value, so running
normalizeUrl on its own output returns that output unchanged. -/
theorem normalizeUrl_idempotent (raw r : String) (h : normalizeUrl raw = some r) :
    normalizeUrl r = some r := by
  rw [normalizeUrl] at h
  by_cases ht : trimL raw.data = []
  · rw [if_pos ht] at h
    exact absurd h (by simp)
  · rw [if_neg ht] at h
    cases hu : urlParseL (withSchemeL (trimL raw.data)) with
    | none => rw [hu] at h; exact absurd h (by simp)
    | some u =>
      rw [hu] at h
      injection h with h2
      subst h2
      obtain ⟨hne, hh, hp, t, hpt⟩ := urlParseL_inv hu
      have htrim : trimL u.render = u.render :=
        trimL_eq_self_of_all (all_nonWs_render hh hp)
      rw [normalizeUrl]
      rw [htrim, if_neg (render_ne_nil u), withSchemeL_render, urlParseL_render hu]

/-- Witness for normalizeUrl_idempotent at raw = "example.com". -/
theorem normalizeUrl_idempotent_witness :
    normalizeUrl "https://example.com/" = some "https://example.com/" :=
  normalizeUrl_idempotent "example.com" "https://example.com/" (by decide)
